import Mathlib

/-!
Verification of the ENPC trading-game browser client (market data
synchronization, session screens, order dispatch, portfolio and
leaderboard view models) against its natural-language specification.

Prices are modelled as rationals, message fields as strings and integers,
and the DOM side effects of each handler as explicit result values.
-/

namespace TradingGame

/-! ### Shared bounded-history push (market.js lines 169-176, chart.js lines 226-236)

Both the per-asset sparkline history (capacity 20) and the shared chart
label/series buffers (capacity 300) use the same JavaScript shape:
`arr.push(x); if (arr.length > cap) arr.shift();`. -/

/-- The push-then-shift step shared by market.js sparkline history and
chart.js label/series history: append, then drop the oldest element if the
capacity is exceeded. -/
def capPush (cap : ℕ) (l : List α) (x : α) : List α :=
  if cap < (l ++ [x]).length then (l ++ [x]).drop 1 else l ++ [x]

/-- Sparkline history push from market.js: capacity 20. -/
def sparkPush (h : List ℚ) (x : ℚ) : List ℚ :=
  capPush 20 h x

/-- Chart history capacity from constants.js (MAX_POINTS). -/
def MAX_POINTS : ℕ := 300

/-! ### Market data synchronizer (market.js updatePrices, lines 107-184)

Per asset and per tick: if the tick carries no price for the asset nothing
changes; otherwise the change cells, trend class, flash signal and the
stored previous price are updated from the carried price and the stored
previous price. -/

/-- Trend direction used for the change-cell CSS class and the flash. -/
inductive Trend
  | up
  | down
  | flat
deriving DecidableEq, Repr

/-- Rendered per-asset view after one tick: change cell, percent-change
cell, the direction class on the change cells, and the row flash. -/
structure AssetView where
  delta : Option ℚ
  deltaPct : Option ℚ
  trendClass : Option Trend
  flash : Option Trend
deriving DecidableEq, Repr

/-- Single-asset body of market.js updatePrices for a tick that carries
price `price`, given the stored previous price: computes change, percent
change, the up/down/plain class, the flash-green/flash-red signal, and
returns the new stored previous price. -/
def updatePriceForAsset (prev : Option ℚ) (price : ℚ) : Option ℚ × AssetView :=
  match prev with
  | none => (some price, ⟨none, none, none, none⟩)
  | some p =>
      let change := price - p
      let changePct := change / p * 100
      (some price,
        ⟨some change, some changePct,
         some (if 0 < change then Trend.up else if change < 0 then Trend.down else Trend.flat),
         if 0 < change then some Trend.up
         else if change < 0 then some Trend.down else none⟩)

/-- Stored previous price after a sequence of ticks for one asset, where
each tick optionally carries a price for that asset (ticks without a price
leave the asset untouched). -/
def runPrev (ticks : List (Option ℚ)) : Option ℚ :=
  ticks.foldl
    (fun prev t =>
      match t with
      | none => prev
      | some x => (updatePriceForAsset prev x).1)
    none

/-- Claim-side sign of a delta, following the spec text: up if positive,
down if negative, flat if zero. -/
def specSign (d : ℚ) : Trend :=
  if 0 < d then Trend.up else if d < 0 then Trend.down else Trend.flat

/-! ### Screen visibility (ui.js showLobbyCard / showGameArea, ws.js onmessage) -/

/-- Visibility of the three screens: setup screen, lobby card, game area. -/
structure Screens where
  setup : Bool
  lobby : Bool
  game : Bool
deriving DecidableEq, Repr

/-- Initial page state: only the setup screen is visible. -/
def initScreens : Screens := ⟨true, false, false⟩

/-- Effect of ui.js showLobbyCard(true): show the lobby card and hide the
setup screen; the game area is not touched. -/
def showLobbyCard (s : Screens) : Screens :=
  { s with lobby := true, setup := false }

/-- Effect of ui.js showGameArea(true): show the game area and hide both
the setup screen and the lobby card. -/
def showGameArea (_s : Screens) : Screens :=
  ⟨false, false, true⟩

/-- Inbound lifecycle messages that change screen visibility in the ws.js
onmessage dispatcher. -/
inductive LifecycleMsg
  | lobbyState
  | gameStarted
deriving DecidableEq, Repr

/-- Screen effect of one lifecycle message (ws.js LOBBY_STATE calls
showLobbyCard(true); GAME_STARTED calls showGameArea(true)). -/
def stepScreen (s : Screens) : LifecycleMsg → Screens
  | LifecycleMsg.lobbyState => showLobbyCard s
  | LifecycleMsg.gameStarted => showGameArea s

/-- Screen state after a sequence of lifecycle messages from page load. -/
def runScreens (msgs : List LifecycleMsg) : Screens :=
  msgs.foldl stepScreen initScreens

/-- Number of screens currently visible. -/
def visibleCount (s : Screens) : ℕ :=
  (if s.setup then 1 else 0) + (if s.lobby then 1 else 0) + (if s.game then 1 else 0)

/-- Claim-side condition: no LobbyState message arrives after a GameStarted
message in the sequence. -/
def noLobbyAfterStart : List LifecycleMsg → Bool
  | [] => true
  | LifecycleMsg.gameStarted :: rest =>
      rest.all fun m => decide (m ≠ LifecycleMsg.lobbyState)
  | LifecycleMsg.lobbyState :: rest => noLobbyAfterStart rest

/-! ### Order dispatch (ws.js handleOrder, lines 295-313) -/

/-- Outbound ORDER frame fields. -/
structure OrderFrame where
  asset : String
  side : String
  qty : Int
deriving DecidableEq, Repr

/-- The ws.js handleOrder handler: returns the list of frames sent over
the socket and the list of local log lines. Mirrors the two early returns
(not connected; `!qty || qty <= 0`) and the single ws.send. -/
def handleOrder (connected : Bool) (asset side : String) (qty : Int) :
    List OrderFrame × List String :=
  if connected = false then ([], ["Not connected."])
  else if qty = 0 ∨ qty ≤ 0 then ([], ["Enter a positive quantity."])
  else ([⟨asset, side, qty⟩], [])

/-! ### Lobby snapshot handling (ws.js LOBBY_STATE, lines 356-377) -/

/-- Effect of one LOBBY_STATE snapshot on the host flag and the start
button: `isHost = userId === msg.hostId` and
`btnStart.disabled = !(isHost && msg.status === "LOBBY")`. The result is
(isHost, startEnabled). -/
def lobbyStateUpdate (userId : Option String) (hostId status : String) : Bool × Bool :=
  let isHost := userId == some hostId
  (isHost, isHost && (status == "LOBBY"))

/-! ### Portfolio view model (portfolio.js renderPortfolio, lines 111-142) -/

/-- Sign classification used for every P&L-bearing cell
(portfolio.js getPnLClass). -/
inductive PnLClass
  | positive
  | negative
  | neutral
deriving DecidableEq, Repr

/-- The portfolio.js / leaderboard.js getPnLClass helper. -/
def getPnLClass (v : ℚ) : PnLClass :=
  if 0 < v then PnLClass.positive
  else if v < 0 then PnLClass.negative
  else PnLClass.neutral

/-- One trade-history row from a PORTFOLIO snapshot. -/
structure TradeRow where
  ts : ℕ
  asset : String
  side_open : String
  qty : Int
  realized_pnl : ℚ
deriving DecidableEq, Repr

/-- Trade rows actually rendered by renderPortfolio:
`trades.slice().reverse().slice(0, 5)`. -/
def renderTrades (trades : List TradeRow) : List TradeRow :=
  trades.reverse.take 5

/-! ### Leaderboard view model (leaderboard.js renderLeaderboard, lines 203-240) -/

/-- One row of an inbound LEADERBOARD snapshot. -/
structure LBRow where
  name : String
  equity : ℚ
  realizedPnL : ℚ
deriving DecidableEq, Repr

/-- One rendered leaderboard row: 1-based rank, top-3 marker (medal and
row highlight), and the sign class of the realized P&L. -/
structure LBRendered where
  rank : ℕ
  topMarker : Bool
  name : String
  equity : ℚ
  pnlClass : PnLClass
deriving DecidableEq, Repr

/-- Body of renderLeaderboard's forEach starting at position `index`. -/
def renderLeaderboardFrom (index : ℕ) : List LBRow → List LBRendered
  | [] => []
  | r :: rest =>
      ⟨index + 1, decide (index < 3), r.name, r.equity, getPnLClass r.realizedPnL⟩ ::
        renderLeaderboardFrom (index + 1) rest

/-- The leaderboard.js renderLeaderboard transform on the server-provided
row list (rendered in the given order, never re-sorted). -/
def renderLeaderboard (rows : List LBRow) : List LBRendered :=
  renderLeaderboardFrom 0 rows

/-! ### Chart history (chart.js pushTickToHistory, constants.js HISTORY/LABELS) -/

/-- The five configured tradable assets from constants.js. -/
inductive Asset
  | OIL
  | GOLD
  | ELECTRONICS
  | RICE
  | PLUMBER
deriving DecidableEq, Repr

/-- Shared chart state: the LABELS list and one series per asset key of
HISTORY; a series entry is none for the `prices[asset] ?? null` gap. -/
structure ChartState where
  labels : List String
  history : Asset → List (Option ℚ)

/-- Initial chart state from constants.js: all buffers empty. -/
def initChartState : ChartState := ⟨[], fun _ => []⟩

/-- The chart.js pushTickToHistory step: a null price map is a no-op;
otherwise push one timestamp label and, for every asset key, one value
(or a null gap), each buffer evicting its oldest entry past MAX_POINTS. -/
def pushTickToHistory (ts : String) (prices : Option (Asset → Option ℚ))
    (s : ChartState) : ChartState :=
  match prices with
  | none => s
  | some pm =>
      { labels := capPush MAX_POINTS s.labels ts,
        history := fun a => capPush MAX_POINTS (s.history a) (pm a) }

/-- Chart state after a sequence of (timestamp, price-map) ticks. -/
def runChart (ticks : List (String × (Asset → Option ℚ))) : ChartState :=
  ticks.foldl (fun s t => pushTickToHistory t.1 (some t.2) s) initChartState

/-! ### Lobby creation (ws.js createLobby, constants.js DEFAULTS) -/

/-- Lobby rules carried by a CREATE_LOBBY frame. -/
structure Rules where
  startingCapital : ℕ
  tickSeconds : ℕ
  durationSec : ℕ
deriving DecidableEq, Repr

/-- Default rules from constants.js. -/
def DEFAULTS : Rules := ⟨10000, 2, 15 * 60⟩

/-- Outbound CREATE_LOBBY frame fields. -/
structure CreateLobbyFrame where
  name : String
  rules : Rules
deriving DecidableEq, Repr

/-- The ws.js createLobby handler: no frame when not connected; otherwise
one frame with the name input (empty-string fallback) and the DEFAULTS
rules, copied field by field. -/
def createLobby (connected : Bool) (nameInput : Option String) :
    Option CreateLobbyFrame :=
  if connected = false then none
  else
    some ⟨nameInput.getD "",
      ⟨DEFAULTS.startingCapital, DEFAULTS.tickSeconds, DEFAULTS.durationSec⟩⟩

/-! ### Chart line trend color (chart.js pushTickToHistory, lines 239-253) -/

/-- Chart line colors chosen by the two-point trend test. -/
inductive LineColor
  | green
  | red
deriving DecidableEq, Repr

/-- The chart.js line-color update: when the selected asset's stored data
has at least two points, compare the last two with a strict greater-than
(`data[data.length - 1] > data[data.length - 2]`) and pick green or red;
with fewer points the color is left unchanged (none). -/
def chartTrendColor (data : List ℚ) : Option LineColor :=
  if 2 ≤ data.length then
    some
      (if data.getD (data.length - 2) 0 < data.getD (data.length - 1) 0
       then LineColor.green
       else LineColor.red)
  else none

/-! ### Helper lemmas -/

lemma capPush_length_le {cap : ℕ} (l : List α) (x : α) (h : l.length ≤ cap) :
    (capPush cap l x).length ≤ cap := by
  unfold capPush
  split <;> simp_all

lemma foldl_capPush_eq_drop {cap : ℕ} (xs : List α) :
    ∀ acc : List α, acc.length ≤ cap →
      xs.foldl (capPush cap) acc = (acc ++ xs).drop ((acc ++ xs).length - cap) := by
  induction xs with
  | nil =>
      intro acc hacc
      simp only [List.foldl_nil, List.append_nil]
      rw [show acc.length - cap = 0 by omega, List.drop_zero]
  | cons x xs ih =>
      intro acc hacc
      simp only [List.foldl_cons]
      by_cases hlt : cap < (acc ++ [x]).length
      · have hlen : acc.length = cap := by
          simp only [List.length_append, List.length_cons, List.length_nil] at hlt
          omega
        have hstep : capPush cap acc x = (acc ++ [x]).drop 1 := by
          unfold capPush
          simp only [hlt, if_pos]
        rw [hstep]
        have hlen2 : ((acc ++ [x]).drop 1).length ≤ cap := by
          simp only [List.length_drop, List.length_append, List.length_cons,
            List.length_nil]
          omega
        rw [ih _ hlen2]
        have hsplit : ((acc ++ [x]) ++ xs).drop 1 = (acc ++ [x]).drop 1 ++ xs :=
          List.drop_append_of_le_length (by simp)
        rw [← hsplit, List.drop_drop]
        have h1 : (acc ++ [x]) ++ xs = acc ++ (x :: xs) := by
          simp
        rw [h1]
        congr 1
        simp only [List.length_drop, List.length_append, List.length_cons,
          List.length_nil]
        omega
      · have hstep : capPush cap acc x = acc ++ [x] := by
          unfold capPush
          simp only [hlt, if_neg, ite_false]
        rw [hstep]
        have hlen2 : (acc ++ [x]).length ≤ cap := by
          simp only [List.length_append, List.length_cons, List.length_nil] at *
          omega
        rw [ih _ hlen2]
        congr 1
        · simp
        · simp

lemma foldl_capPush_from_nil {cap : ℕ} (xs : List α) :
    xs.foldl (capPush cap) [] = xs.drop (xs.length - cap) := by
  have h := @foldl_capPush_eq_drop _ cap xs [] (by simp)
  simpa using h

lemma capPush_at_capacity {cap : ℕ} (l : List α) (x : α) (hcap : 0 < cap)
    (h : l.length = cap) :
    capPush cap l x = l.drop 1 ++ [x] := by
  unfold capPush
  have hlt : cap < (l ++ [x]).length := by
    simp [h]
  simp only [hlt, if_pos]
  rcases l with _ | ⟨y, ys⟩
  · simp at h
    omega
  · simp

lemma updatePriceForAsset_fst (prev : Option ℚ) (x : ℚ) :
    (updatePriceForAsset prev x).1 = some x := by
  cases prev <;> simp [updatePriceForAsset]

lemma runPrev_core (ticks : List (Option ℚ)) :
    ∀ acc : Option ℚ,
      (ticks.foldl
        (fun prev t =>
          match t with
          | none => prev
          | some x => (updatePriceForAsset prev x).1)
        acc = none) ↔ (acc = none ∧ ∀ t ∈ ticks, t = none) := by
  induction ticks with
  | nil => intro acc; simp
  | cons t ts ih =>
      intro acc
      cases t with
      | none =>
          simp only [List.foldl_cons, List.mem_cons]
          rw [ih]
          constructor
          · rintro ⟨h1, h2⟩
            exact ⟨h1, fun x hx => by
              rcases hx with hx | hx
              · subst hx; rfl
              · exact h2 x hx⟩
          · rintro ⟨h1, h2⟩
            exact ⟨h1, fun x hx => h2 x (Or.inr hx)⟩
      | some v =>
          simp only [List.foldl_cons]
          rw [updatePriceForAsset_fst, ih]
          simp only [List.mem_cons]
          constructor
          · rintro ⟨h, _⟩
            exact absurd h (by simp)
          · rintro ⟨h1, h2⟩
            exact absurd (h2 (some v) (Or.inl rfl)) (by simp)

lemma noLobbyAfterStart_of_all (msgs : List LifecycleMsg)
    (h : msgs.all (fun m => decide (m ≠ LifecycleMsg.lobbyState)) = true) :
    noLobbyAfterStart msgs = true := by
  induction msgs with
  | nil => rfl
  | cons m rest ih =>
      cases m with
      | lobbyState => simp at h
      | gameStarted =>
          simp only [List.all_cons, Bool.and_eq_true] at h
          simpa [noLobbyAfterStart] using h.2

lemma screens_mutex_core (msgs : List LifecycleMsg) :
    ∀ s : Screens, noLobbyAfterStart msgs = true →
      (s.game = true → msgs.all (fun m => decide (m ≠ LifecycleMsg.lobbyState)) = true) →
      visibleCount s ≤ 1 →
      visibleCount (msgs.foldl stepScreen s) ≤ 1 := by
  induction msgs with
  | nil => intro s _ _ h3; simpa using h3
  | cons m rest ih =>
      intro s h1 h2 h3
      cases m with
      | lobbyState =>
          have hg : s.game = false := by
            cases hsg : s.game with
            | false => rfl
            | true =>
                have := h2 hsg
                simp at this
          simp only [List.foldl_cons]
          apply ih
          · simpa [noLobbyAfterStart] using h1
          · intro hgame
            have : s.game = true := hgame
            rw [hg] at this
            cases this
          · simp [stepScreen, showLobbyCard, visibleCount, hg]
      | gameStarted =>
          have hall : rest.all (fun m => decide (m ≠ LifecycleMsg.lobbyState)) = true := by
            simpa [noLobbyAfterStart] using h1
          simp only [List.foldl_cons]
          apply ih
          · exact noLobbyAfterStart_of_all rest hall
          · intro _; exact hall
          · simp [stepScreen, showGameArea, visibleCount]

lemma renderLeaderboardFrom_length (rows : List LBRow) :
    ∀ k, (renderLeaderboardFrom k rows).length = rows.length := by
  induction rows with
  | nil => intro k; rfl
  | cons r rest ih => intro k; simp [renderLeaderboardFrom, ih]

lemma renderLeaderboardFrom_get (rows : List LBRow) :
    ∀ k i : ℕ, (renderLeaderboardFrom k rows)[i]? =
      (rows[i]?).map fun r =>
        ⟨k + i + 1, decide (k + i < 3), r.name, r.equity, getPnLClass r.realizedPnL⟩ := by
  induction rows with
  | nil => intro k i; simp [renderLeaderboardFrom]
  | cons r rest ih =>
      intro k i
      cases i with
      | zero => simp [renderLeaderboardFrom]
      | succ n =>
          simp only [renderLeaderboardFrom, List.getElem?_cons_succ]
          rw [ih (k + 1) n]
          have h1 : k + 1 + n = k + (n + 1) := by omega
          simp only [h1]

lemma runChart_core (ticks : List (String × (Asset → Option ℚ))) :
    ∀ s : ChartState,
      (ticks.foldl (fun s t => pushTickToHistory t.1 (some t.2) s) s).labels =
        (ticks.map Prod.fst).foldl (capPush MAX_POINTS) s.labels ∧
      ∀ a : Asset,
        (ticks.foldl (fun s t => pushTickToHistory t.1 (some t.2) s) s).history a =
          (ticks.map fun t => t.2 a).foldl (capPush MAX_POINTS) (s.history a) := by
  induction ticks with
  | nil => intro s; exact ⟨rfl, fun a => rfl⟩
  | cons t ts ih =>
      intro s
      simp only [List.foldl_cons, List.map_cons]
      exact ih (pushTickToHistory t.1 (some t.2) s)

/-! ### Claim theorems -/

/-- C1 (counterexample): it is not true that after a LobbyState message
only the Lobby screen is visible regardless of the prior screen: after the
message sequence GameStarted, LobbyState both the Lobby screen and the
Trading (game area) screen are visible, so screen visibility is not
mutually exclusive. -/
theorem C1_counterexample_lobby_after_start :
    (runScreens [LifecycleMsg.gameStarted, LifecycleMsg.lobbyState]).lobby = true ∧
    (runScreens [LifecycleMsg.gameStarted, LifecycleMsg.lobbyState]).game = true ∧
    visibleCount (runScreens [LifecycleMsg.gameStarted, LifecycleMsg.lobbyState]) = 2 := by
  decide

/-- C1 (amended): after a GameStarted message only the Trading screen is
visible regardless of the prior screen; after a LobbyState message the
Lobby screen is visible and the Setup screen is hidden, but the Trading
screen keeps its prior visibility; consequently, for every message
sequence in which no LobbyState arrives after a GameStarted, at most one
of the three screens is visible. -/
theorem C1_screens_amended (msgs : List LifecycleMsg) (s : Screens)
    (h : noLobbyAfterStart msgs = true) :
    stepScreen s LifecycleMsg.gameStarted = ⟨false, false, true⟩ ∧
    (stepScreen s LifecycleMsg.lobbyState).setup = false ∧
    (stepScreen s LifecycleMsg.lobbyState).lobby = true ∧
    (stepScreen s LifecycleMsg.lobbyState).game = s.game ∧
    visibleCount (runScreens msgs) ≤ 1 := by
  refine ⟨rfl, rfl, rfl, rfl, ?_⟩
  apply screens_mutex_core msgs initScreens h
  · intro hg
    cases hg
  · decide

/-- Witness for C1_screens_amended at the concrete sequence
LobbyState, GameStarted. -/
theorem C1_screens_amended_witness :
    noLobbyAfterStart [LifecycleMsg.lobbyState, LifecycleMsg.gameStarted] = true ∧
    visibleCount (runScreens [LifecycleMsg.lobbyState, LifecycleMsg.gameStarted]) ≤ 1 :=
  ⟨by decide,
   (C1_screens_amended [LifecycleMsg.lobbyState, LifecycleMsg.gameStarted] initScreens
      (by decide)).2.2.2.2⟩

/-- C2: for every sequence of applied ticks the sparkline price-history
ring buffer holds exactly the last 20 appended prices in insertion order
(so its length is always at most 20), and an append at capacity evicts
exactly the oldest element. -/
theorem C2_sparkline_ring_buffer (xs h : List ℚ) (x : ℚ) (hcap : h.length = 20) :
    (xs.foldl sparkPush []).length = min xs.length 20 ∧
    xs.foldl sparkPush [] = xs.drop (xs.length - 20) ∧
    sparkPush h x = h.drop 1 ++ [x] := by
  have hfun : sparkPush = capPush 20 := rfl
  refine ⟨?_, ?_, ?_⟩
  · rw [hfun, foldl_capPush_from_nil]
    simp only [List.length_drop]
    omega
  · rw [hfun, foldl_capPush_from_nil]
  · rw [hfun]
    exact capPush_at_capacity h x (by norm_num) hcap

/-- Witness for C2_sparkline_ring_buffer at a concrete three-price tick
sequence and a concrete full buffer. -/
theorem C2_sparkline_ring_buffer_witness :
    (List.replicate 20 (0 : ℚ)).length = 20 ∧
    ((([1, 2, 3] : List ℚ).foldl sparkPush []).length = min ([1, 2, 3] : List ℚ).length 20 ∧
     ([1, 2, 3] : List ℚ).foldl sparkPush [] =
       ([1, 2, 3] : List ℚ).drop (([1, 2, 3] : List ℚ).length - 20) ∧
     sparkPush (List.replicate 20 (0 : ℚ)) 5 = (List.replicate 20 (0 : ℚ)).drop 1 ++ [5]) :=
  ⟨by simp, C2_sparkline_ring_buffer [1, 2, 3] (List.replicate 20 0) 5 (by simp)⟩

/-- C3: on an asset's first carried price the change cells and flash are
absent; on every later carried price the delta is price - previous, the
percent change is delta / previous * 100, the trend class is the sign of
the delta, and a flash in the matching direction is emitted exactly when
the trend is up or down; the stored previous price is absent exactly when
no tick so far carried a price for the asset. -/
theorem C3_delta_trend_flash (p price : ℚ) (ticks : List (Option ℚ)) :
    updatePriceForAsset none price = (some price, ⟨none, none, none, none⟩) ∧
    (updatePriceForAsset (some p) price).2.delta = some (price - p) ∧
    (updatePriceForAsset (some p) price).2.deltaPct = some ((price - p) / p * 100) ∧
    (updatePriceForAsset (some p) price).2.trendClass = some (specSign (price - p)) ∧
    (updatePriceForAsset (some p) price).2.flash =
      (if specSign (price - p) = Trend.flat then none
       else some (specSign (price - p))) ∧
    (runPrev ticks = none ↔ ∀ t ∈ ticks, t = none) := by
  refine ⟨rfl, rfl, rfl, rfl, ?_, ?_⟩
  · simp only [updatePriceForAsset, specSign]
    split_ifs <;> simp_all
  · have h := runPrev_core ticks none
    unfold runPrev
    rw [h]
    simp

/-- C4: orders with a non-positive quantity or without an open connection
send no frame and only log locally; a positive quantity on an open
connection sends exactly one ORDER frame with the submitted fields. -/
theorem C4_order_validation (asset side : String) (qty : Int) :
    handleOrder false asset side qty = ([], ["Not connected."]) ∧
    handleOrder true asset side 0 = ([], ["Enter a positive quantity."]) ∧
    handleOrder true asset side (-5) = ([], ["Enter a positive quantity."]) ∧
    (handleOrder true asset side qty).1 =
      (if 0 < qty then [⟨asset, side, qty⟩] else []) ∧
    (handleOrder true asset side qty).2 =
      (if 0 < qty then [] else ["Enter a positive quantity."]) := by
  refine ⟨by simp [handleOrder], by simp [handleOrder], by simp [handleOrder], ?_, ?_⟩ <;>
  · by_cases h : 0 < qty
    · have h2 : ¬(qty = 0 ∨ qty ≤ 0) := by omega
      simp [handleOrder, h, h2]
    · have h2 : qty = 0 ∨ qty ≤ 0 := by omega
      simp [handleOrder, h, h2]

/-- C5: on every lobby snapshot isHost is the equality of the local userId
with the snapshot's hostId, and the start action is enabled iff isHost
holds and the status is LOBBY; with hostId U1 and local userId U1 start is
enabled iff status is LOBBY, and with local userId U2 start is disabled
regardless of status. -/
theorem C5_isHost_start_enable (uid : Option String) (hostId status : String) :
    ((lobbyStateUpdate uid hostId status).1 = true ↔ uid = some hostId) ∧
    ((lobbyStateUpdate uid hostId status).2 = true ↔
      (uid = some hostId ∧ status = "LOBBY")) ∧
    (lobbyStateUpdate (some "U1") "U1" status).1 = true ∧
    ((lobbyStateUpdate (some "U1") "U1" status).2 = true ↔ status = "LOBBY") ∧
    (lobbyStateUpdate (some "U2") "U1" status).1 = false ∧
    (lobbyStateUpdate (some "U2") "U1" status).2 = false := by
  have hU1 : ((some "U1" == some "U1") : Bool) = true := by decide
  have hU2 : ((some "U2" == some "U1") : Bool) = false := by decide
  refine ⟨?_, ?_, ?_, ?_, ?_, ?_⟩
  · simp [lobbyStateUpdate]
  · simp [lobbyStateUpdate]
  · simp [lobbyStateUpdate, hU1]
  · simp [lobbyStateUpdate, hU1]
  · simp [lobbyStateUpdate, hU2]
  · simp [lobbyStateUpdate, hU2]

/-- C6: the rendered trade-history rows are exactly the min(n, 5) most
recent trades, most recent first; in particular 7 pushed trades render
exactly the 5 most recent in reverse-chronological order. -/
theorem C6_trade_history_clamp (trades : List TradeRow) :
    (renderTrades trades).length = min trades.length 5 ∧
    renderTrades trades = (trades.drop (trades.length - 5)).reverse ∧
    renderTrades
        [⟨1, "OIL", "BUY", 1, 0⟩, ⟨2, "OIL", "BUY", 1, 0⟩, ⟨3, "OIL", "BUY", 1, 0⟩,
         ⟨4, "OIL", "BUY", 1, 0⟩, ⟨5, "OIL", "BUY", 1, 0⟩, ⟨6, "OIL", "BUY", 1, 0⟩,
         ⟨7, "OIL", "BUY", 1, 0⟩] =
      [⟨7, "OIL", "BUY", 1, 0⟩, ⟨6, "OIL", "BUY", 1, 0⟩, ⟨5, "OIL", "BUY", 1, 0⟩,
       ⟨4, "OIL", "BUY", 1, 0⟩, ⟨3, "OIL", "BUY", 1, 0⟩] := by
  refine ⟨?_, List.take_reverse, by rfl⟩
  simp only [renderTrades, List.length_take, List.length_reverse]
  omega

/-- C7: each rendered leaderboard row's rank is its 1-based position in
the server-provided order, the first three positions are marked, and the
realized P&L class is its sign; the two-row example renders rank 1 = A
marked top with positive class and rank 2 = B with negative class. -/
theorem C7_leaderboard_ranks (rows : List LBRow) (i : ℕ) :
    (renderLeaderboard rows).length = rows.length ∧
    (renderLeaderboard rows)[i]? =
      (rows[i]?).map (fun r =>
        ⟨i + 1, decide (i < 3), r.name, r.equity, getPnLClass r.realizedPnL⟩) ∧
    renderLeaderboard [⟨"A", 12000, 500⟩, ⟨"B", 9000, -200⟩] =
      [⟨1, true, "A", 12000, PnLClass.positive⟩,
       ⟨2, true, "B", 9000, PnLClass.negative⟩] := by
  refine ⟨renderLeaderboardFrom_length rows 0, ?_, by rfl⟩
  have h := renderLeaderboardFrom_get rows 0 i
  simpa using h

/-- C8: each tick appends exactly one label and, per asset, exactly one
value (a gap for an absent asset), the label list and every series always
have equal length, the length is at most 300, and the oldest entries are
evicted first. -/
theorem C8_chart_lockstep (ticks : List (String × (Asset → Option ℚ))) (a : Asset) :
    ((runChart ticks).history a).length = (runChart ticks).labels.length ∧
    (runChart ticks).labels.length = min ticks.length MAX_POINTS ∧
    (runChart ticks).labels = (ticks.map Prod.fst).drop (ticks.length - MAX_POINTS) ∧
    (runChart ticks).history a =
      (ticks.map fun t => t.2 a).drop (ticks.length - MAX_POINTS) := by
  obtain ⟨hl, hh⟩ := runChart_core ticks initChartState
  have hlabels : (runChart ticks).labels =
      (ticks.map Prod.fst).drop (ticks.length - MAX_POINTS) := by
    rw [show (runChart ticks).labels =
        (ticks.map Prod.fst).foldl (capPush MAX_POINTS) [] from hl]
    rw [foldl_capPush_from_nil]
    simp
  have hhist : (runChart ticks).history a =
      (ticks.map fun t => t.2 a).drop (ticks.length - MAX_POINTS) := by
    rw [show (runChart ticks).history a =
        (ticks.map fun t => t.2 a).foldl (capPush MAX_POINTS) [] from hh a]
    rw [foldl_capPush_from_nil]
    simp
  refine ⟨?_, ?_, hlabels, hhist⟩
  · rw [hlabels, hhist]
    simp only [List.length_drop, List.length_map]
  · rw [hlabels]
    simp only [List.length_drop, List.length_map, MAX_POINTS]
    omega

/-- C9: a create-lobby action on an open connection always sends exactly
one CREATE_LOBBY frame carrying the configured default rules (starting
capital 10000, tick seconds 2, duration 900 seconds), with the entered
name as the only varying field; without an open connection nothing is
sent. -/
theorem C9_createLobby_default_rules (nameInput : Option String) :
    createLobby false nameInput = none ∧
    createLobby true nameInput = some ⟨nameInput.getD "", ⟨10000, 2, 900⟩⟩ ∧
    DEFAULTS = ⟨10000, 2, 900⟩ :=
  ⟨rfl, rfl, rfl⟩

/-- C10: whenever the selected symbol's stored history has at least two
points and the last two points are equal, the chart line is classified
red (downtrend), because the comparison is a strict greater-than; and
with at least two points the classification always picks a color (never
stays neutral). -/
theorem C10_equal_points_red (l : List ℚ) (x : ℚ) :
    chartTrendColor (l ++ [x, x]) = some LineColor.red ∧
    (2 ≤ l.length → (chartTrendColor l).isSome = true) := by
  constructor
  · unfold chartTrendColor
    have hlen2 : 2 ≤ (l ++ [x, x]).length := by simp
    rw [if_pos hlen2]
    have hL : (l ++ [x, x]).length = l.length + 2 := by simp
    have e1 : (l ++ [x, x]).getD ((l ++ [x, x]).length - 1) 0 = x := by
      rw [hL, show l.length + 2 - 1 = l.length + 1 by omega]
      rw [List.getD_append_right l [x, x] 0 (l.length + 1) (by omega)]
      simp
    have e2 : (l ++ [x, x]).getD ((l ++ [x, x]).length - 2) 0 = x := by
      rw [hL, show l.length + 2 - 2 = l.length by omega]
      rw [List.getD_append_right l [x, x] 0 l.length (by omega)]
      simp
    rw [e1, e2]
    simp
  · intro hlen
    unfold chartTrendColor
    rw [if_pos hlen]
    rfl

/-- Witness for C10_equal_points_red at the length-two history 5, 5 (the
state after two flat ticks) and at the concrete history 1, 2. -/
theorem C10_equal_points_red_witness :
    chartTrendColor (([] : List ℚ) ++ [5, 5]) = some LineColor.red ∧
    (2 ≤ ([1, 2] : List ℚ).length ∧
     (chartTrendColor ([1, 2] : List ℚ)).isSome = true) :=
  ⟨(C10_equal_points_red [] 5).1,
   ⟨by simp, (C10_equal_points_red [1, 2] 3).2 (by simp)⟩⟩

end TradingGame
